import Mathlib

/-!
Verification of the hvc audio-segmentation module (`hvc/audiofileIO.py`).

The Python source is shallowly embedded below: machine floats are modelled
as exact rationals (ℚ), numpy arrays as lists, raised exceptions as
`Except`/sum results.  Definitions mirror the source line by line; comments
point back to the function each definition embeds.
-/

namespace Hvc

/-- Parameters of `segment_song` (the `segment_params` dict with keys
`threshold`, `min_syl_dur`, `min_silent_dur`). -/
structure SegParams where
  threshold : ℚ
  min_syl_dur : ℚ
  min_silent_dur : ℚ
  deriving DecidableEq

/-- Error kinds raised by `segment_song`.  The source raises `ValueError`
in each case; the spec names the zero-or-two-axis failure
`AmbiguousAxisError`, the length check is the
`amp and time_bins must have same length` error, and `indexOutOfRange`
models numpy's `IndexError` when an edge index computed from the
convolution falls outside `time_bins`. -/
inductive SegErr where
  | ambiguousAxis
  | lengthMismatch
  | indexOutOfRange
  deriving DecidableEq

/-- Result of `segment_song`: an error, the `(None, None)` sentinel
returned on line 444 of the source when no onsets or offsets are found,
or the pair of onset/offset arrays. -/
inductive SegResult where
  | err : SegErr → SegResult
  | nones : SegResult
  | segs : List ℚ → List ℚ → SegResult
  deriving DecidableEq

/-- `amp > segment_params['threshold']` (line 422): elementwise strict
comparison producing a boolean sequence. -/
def aboveTh (amp : List ℚ) (threshold : ℚ) : List Bool :=
  amp.map (fun a => decide (threshold < a))

/-- Helper for `np.convolve([1, -1], above_th)` (line 427): the full
convolution of `[1, -1]` with a 0/1 sequence `x` of length `n` is the
length-`n+1` sequence `y` with `y[i] = x[i] - x[i-1]`, taking `x[-1]` and
`x[n]` as 0.  `prev` carries `x[i-1]`. -/
def convAux (prev : Bool) : List Bool → List ℤ
  | [] => [(0 : ℤ) - (if prev then 1 else 0)]
  | b :: rest => ((if b then 1 else 0) - (if prev then 1 else 0)) :: convAux b rest

/-- `np.convolve(h, above_th)` with `h = [1, -1]` (lines 423-427). -/
def convEdges (x : List Bool) : List ℤ :=
  convAux false x

/-- `np.where(cond)[0]` / `np.nonzero(cond)`: indices (counted from `start`)
at which the predicate holds, in increasing order. -/
def idxWhere {α : Type} (p : α → Bool) : List α → ℕ → List ℕ
  | [], _ => []
  | v :: rest, i => if p v then i :: idxWhere p rest (i + 1) else idxWhere p rest (i + 1)

/-- Fancy indexing `arr[keep_these]`: elements of `l` at the positions
listed in `ks`, in that order. -/
def select (l : List ℚ) (ks : List ℕ) : List ℚ :=
  ks.filterMap (fun k => l.get? k)

/-- Lines 443-469 of `segment_song`: the processing shared by both axis
forms once candidate onset/offset arrays exist.  `sf = some f` is the
`samp_freq` form (durations divided by `f` before comparison, boundaries
divided by `f` at the end); `sf = none` is the `time_bins` form. -/
def segPost (onsets offsets : List ℚ) (p : SegParams) (sf : Option ℚ) : SegResult :=
  -- line 443: if onsets.shape[0] < 1 or offsets.shape[0] < 1: return None, None
  if onsets.length < 1 ∨ offsets.length < 1 then .nones
  else
    -- line 447: silent_gap_durs = onsets[1:] - offsets[:-1]
    let gaps := List.zipWith (fun a b => a - b) onsets.tail offsets.dropLast
    let gaps2 := match sf with
      | some f => gaps.map (fun g => g / f)
      | none => gaps
    -- line 451: keep_these = np.nonzero(silent_gap_durs > min_silent_dur)
    let keep1 := idxWhere (fun g => decide (p.min_silent_dur < g)) gaps2 0
    -- lines 452-455: concatenate first onset / filtered interior / last offset
    let onsets2 := onsets.headD 0 :: select onsets.tail keep1
    let offsets2 := select offsets.dropLast keep1 ++ [offsets.getLastD 0]
    -- line 458: syl_durs = offsets - onsets
    let durs := List.zipWith (fun a b => a - b) offsets2 onsets2
    let durs2 := match sf with
      | some f => durs.map (fun d => d / f)
      | none => durs
    -- line 461: keep_these = np.nonzero(syl_durs > min_syl_dur)
    let keep2 := idxWhere (fun d => decide (p.min_syl_dur < d)) durs2 0
    let onsets3 := select onsets2 keep2
    let offsets3 := select offsets2 keep2
    -- lines 465-467: convert from samples to seconds in the samp_freq form
    match sf with
    | some f => .segs (onsets3.map (fun o => o / f)) (offsets3.map (fun o => o / f))
    | none => .segs onsets3 offsets3

/-- `segment_song(amp, segment_params, time_bins, samp_freq)`
(lines 376-469).  Exactly one of `time_bins` and `samp_freq` must be
supplied; onsets are rising edges of the above-threshold sequence and
offsets falling edges, then short silent gaps are merged away and short
segments dropped. -/
def segment_song (amp : List ℚ) (p : SegParams)
    (time_bins : Option (List ℚ)) (samp_freq : Option ℚ) : SegResult :=
  match time_bins, samp_freq with
  -- lines 410-412: neither axis supplied
  | none, none => .err .ambiguousAxis
  -- lines 413-415: both axes supplied
  | some _, some _ => .err .ambiguousAxis
  | some tb, none =>
    -- lines 417-420: amp and time_bins must have the same length
    if amp.length ≠ tb.length then .err .lengthMismatch
    else
      let conv := convEdges (aboveTh amp p.threshold)
      let onIdx := idxWhere (fun v => decide ((0 : ℤ) < v)) conv 0
      let offIdx := idxWhere (fun v => decide (v < (0 : ℤ))) conv 0
      -- lines 433-434: time_bins[np.where(...)]; numpy raises IndexError
      -- when an index reaches len(time_bins) (the convolution has one more
      -- entry than time_bins)
      if onIdx.any (fun i => tb.length ≤ i) ∨ offIdx.any (fun i => tb.length ≤ i) then
        .err .indexOutOfRange
      else
        segPost (select tb onIdx) (select tb offIdx) p none
  | none, some sf =>
    let conv := convEdges (aboveTh amp p.threshold)
    -- lines 440-441: onsets/offsets are the sample indices themselves
    let onsets := (idxWhere (fun v => decide ((0 : ℤ) < v)) conv 0).map (fun i : ℕ => (i : ℚ))
    let offsets := (idxWhere (fun v => decide (v < (0 : ℤ))) conv 0).map (fun i : ℕ => (i : ℚ))
    segPost onsets offsets p (some sf)

end Hvc

open Hvc

/-- C1: on the envelope `[0,0,6000,6000,6000,0,0,0,6000,6000,0,0]` with
threshold 5000, sample rate 1, `min_silent_dur = 2` and `min_syl_dur = 2`,
`segment_song` returns exactly one segment with onset 2 and offset 5: the
gap of 3 between the two above-threshold runs exceeds `min_silent_dur` so
the runs stay separate, and the length-2 run is dropped because the
duration comparison `syl_durs > min_syl_dur` is strict. -/
theorem segment_song_end_to_end_example :
    segment_song [0, 0, 6000, 6000, 6000, 0, 0, 0, 6000, 6000, 0, 0]
      ⟨5000, 2, 2⟩ none (some 1) = SegResult.segs [2] [5] := by
  norm_num [segment_song, segPost, aboveTh, convEdges, convAux, idxWhere, select]
  decide

/-- C9: calling `segment_song` with both the time-bins axis and the
sample-rate axis supplied, or with neither supplied, fails with the
ambiguous-axis error (the `ValueError`s raised on lines 410-415), for
every envelope, parameter set and axis values. -/
theorem segment_song_ambiguous_axis (amp : List ℚ) (p : SegParams)
    (tb : List ℚ) (sf : ℚ) :
    segment_song amp p none none = SegResult.err SegErr.ambiguousAxis ∧
      segment_song amp p (some tb) (some sf) = SegResult.err SegErr.ambiguousAxis := by
  exact ⟨rfl, rfl⟩

namespace Hvc

/-- An envelope with every value at or below the threshold yields an
all-false above-threshold sequence. -/
theorem aboveTh_all_false (amp : List ℚ) (th : ℚ) (hall : ∀ a ∈ amp, a ≤ th) :
    ∀ b ∈ aboveTh amp th, b = false := by
  intro b hb
  obtain ⟨a, ha, hab⟩ := List.mem_map.mp hb
  have := hall a ha
  simp only [← hab, decide_eq_false_iff_not]
  exact not_lt.mpr this

/-- The edge convolution of an all-false sequence is all zero. -/
theorem convAux_all_zero (x : List Bool) (hx : ∀ b ∈ x, b = false) :
    ∀ v ∈ convAux false x, v = 0 := by
  induction x with
  | nil => intro v hv; simpa [convAux] using hv
  | cons b rest ih =>
      have hb : b = false := hx b (List.mem_cons_self b rest)
      intro v hv
      subst hb
      simp only [convAux, List.mem_cons] at hv
      rcases hv with h | h
      · simpa using h
      · exact ih (fun c hc => hx c (List.mem_cons_of_mem _ hc)) v h

/-- `idxWhere` over a list on which the predicate never holds is empty. -/
theorem idxWhere_eq_nil {α : Type} (p : α → Bool) (l : List α)
    (h : ∀ v ∈ l, p v = false) : ∀ i, idxWhere p l i = [] := by
  induction l with
  | nil => intro i; rfl
  | cons v rest ih =>
      intro i
      have hv : p v = false := h v (List.mem_cons_self v rest)
      simp only [idxWhere, hv, Bool.false_eq_true, if_false]
      exact ih (fun w hw => h w (List.mem_cons_of_mem _ hw)) (i + 1)

end Hvc

/-- C2 (amended): for every envelope whose values are all at or below the
threshold, `segment_song` returns the `(None, None)` sentinel — the
explicit no-segments marker of line 444 — rather than raising an error,
with either axis form (the time-bin axis must match the envelope in
length).  The source returns `None, None`, not a pair of empty arrays. -/
theorem segment_song_silent (amp : List ℚ) (p : SegParams) (tb : List ℚ) (sf : ℚ)
    (hall : ∀ a ∈ amp, a ≤ p.threshold) (hlen : tb.length = amp.length) :
    segment_song amp p none (some sf) = SegResult.nones ∧
      segment_song amp p (some tb) none = SegResult.nones := by
  have hzero : ∀ v ∈ convEdges (aboveTh amp p.threshold), v = 0 :=
    convAux_all_zero _ (aboveTh_all_false amp p.threshold hall)
  have hon : idxWhere (fun v => decide ((0 : ℤ) < v)) (convEdges (aboveTh amp p.threshold)) 0 = [] := by
    refine idxWhere_eq_nil _ _ (fun v hv => ?_) 0
    simp [hzero v hv]
  have hoff : idxWhere (fun v => decide (v < (0 : ℤ))) (convEdges (aboveTh amp p.threshold)) 0 = [] := by
    refine idxWhere_eq_nil _ _ (fun v hv => ?_) 0
    simp [hzero v hv]
  constructor
  · simp [segment_song, hon, hoff, segPost]
  · simp [segment_song, hlen, hon, hoff, segPost, select]

/-- C2 (counterexample to the claim as stated): on the silent envelope
`[0, 0, 0]` the result is the `(None, None)` sentinel, which is not the
pair of empty onset/offset sequences the claim describes. -/
theorem segment_song_silent_counterexample :
    segment_song [0, 0, 0] ⟨5000, 2, 2⟩ none (some 1) = SegResult.nones ∧
      segment_song [0, 0, 0] ⟨5000, 2, 2⟩ none (some 1) ≠ SegResult.segs [] [] := by
  have h : segment_song [0, 0, 0] ⟨5000, 2, 2⟩ none (some 1) = SegResult.nones := by
    norm_num [segment_song, segPost, aboveTh, convEdges, convAux, idxWhere, select]
  exact ⟨h, by rw [h]; simp⟩

/-- C2 (witness): the silent-envelope theorem applied at `[0]` with
sample rate 1 and time bins `[0]`. -/
theorem segment_song_silent_witness :
    segment_song [0] ⟨5000, 2, 2⟩ none (some 1) = SegResult.nones ∧
      segment_song [0] ⟨5000, 2, 2⟩ (some [0]) none = SegResult.nones :=
  segment_song_silent [0] ⟨5000, 2, 2⟩ [0] 1 (by norm_num) rfl

namespace Hvc

/-- Python's `round` / `np.round`: round half to even (banker's rounding). -/
def roundHalfEven (q : ℚ) : ℤ :=
  if q - ⌊q⌋ < 1 / 2 then ⌊q⌋
  else if 1 / 2 < q - ⌊q⌋ then ⌊q⌋ + 1
  else if ⌊q⌋ % 2 = 0 then ⌊q⌋ else ⌊q⌋ + 1

/-- The contents of an evtaf `.not.mat` annotation as loaded by
`evfuncs.load_notmat`: recorded segmentation parameters (`min_dur` and
`min_int` in milliseconds), onsets/offsets in milliseconds, labels. -/
structure NotMat where
  threshold : ℚ
  min_dur : ℚ
  min_int : ℚ
  onsets : List ℚ
  offsets : List ℚ
  labels : List Char
  deriving DecidableEq

/-- Which of the three segmentation parameters failed the comparison in
`Song.__init__` (lines 624-635); each raise names the offending key in
its message. -/
inductive MismatchField where
  | threshold
  | min_dur
  | min_int
  deriving DecidableEq

/-- The annotation-derived state a `Song` stores on the evtaf annotation
path (lines 636-640). -/
structure SongAnnot where
  onsets_s : List ℚ
  offsets_s : List ℚ
  onsets_Hz : List ℤ
  offsets_Hz : List ℤ
  labels : List Char
  deriving DecidableEq

/-- The evtaf annotation branch of `Song.__init__` (lines 611-640):
compares the supplied `segment_params` against the values recorded in the
`.not.mat` annotation (converting `min_dur`/`min_int` from ms to s), and
raises `Song.SegmentParametersMismatchError` on the first disagreement;
on agreement converts onsets/offsets from ms to s and to sample units
(`np.round(x * fs) - 1` for onsets, `np.round(x * fs)` for offsets). -/
def song_init_evtaf_annot (segment_params : SegParams) (song_dict : NotMat)
    (sampFreq : ℚ) : Except MismatchField SongAnnot :=
  if segment_params.threshold ≠ song_dict.threshold then .error .threshold
  else if segment_params.min_syl_dur ≠ song_dict.min_dur / 1000 then .error .min_dur
  else if segment_params.min_silent_dur ≠ song_dict.min_int / 1000 then .error .min_int
  else
    let onsets_s := song_dict.onsets.map (fun o => o / 1000)
    let offsets_s := song_dict.offsets.map (fun o => o / 1000)
    .ok { onsets_s := onsets_s
          offsets_s := offsets_s
          onsets_Hz := onsets_s.map (fun o => roundHalfEven (o * sampFreq) - 1)
          offsets_Hz := offsets_s.map (fun o => roundHalfEven (o * sampFreq))
          labels := song_dict.labels }

/-- The disagreement that a given `MismatchField` value reports. -/
def mismatchAt : MismatchField → SegParams → NotMat → Prop
  | .threshold, sp, sd => sp.threshold ≠ sd.threshold
  | .min_dur, sp, sd => sp.min_syl_dur ≠ sd.min_dur / 1000
  | .min_int, sp, sd => sp.min_silent_dur ≠ sd.min_int / 1000

end Hvc

/-- C5: whenever the recorded threshold, min-duration or min-gap of an
evtaf annotation (after ms-to-s conversion) differs from the supplied
segmentation parameters, `Song` construction on the annotation path fails
with the parameters-mismatch error naming a field that indeed
disagrees. -/
theorem song_init_annot_mismatch (sp : SegParams) (sd : NotMat) (sf : ℚ)
    (h : sp.threshold ≠ sd.threshold ∨ sp.min_syl_dur ≠ sd.min_dur / 1000 ∨
      sp.min_silent_dur ≠ sd.min_int / 1000) :
    ∃ f : MismatchField, song_init_evtaf_annot sp sd sf = .error f ∧ mismatchAt f sp sd := by
  by_cases h1 : sp.threshold = sd.threshold
  · by_cases h2 : sp.min_syl_dur = sd.min_dur / 1000
    · have h3 : sp.min_silent_dur ≠ sd.min_int / 1000 := by tauto
      refine ⟨.min_int, ?_, h3⟩
      simp [song_init_evtaf_annot, h1, h2, h3]
    · refine ⟨.min_dur, ?_, h2⟩
      simp [song_init_evtaf_annot, h1, h2]
  · refine ⟨.threshold, ?_, h1⟩
    simp [song_init_evtaf_annot, h1]

/-- C5 (witness): a supplied threshold of 1500 against a recorded
threshold of 5000 makes construction fail with a mismatch error. -/
theorem song_init_annot_mismatch_witness :
    ∃ f : MismatchField,
      song_init_evtaf_annot ⟨1500, 1 / 100, 6 / 1000⟩
        ⟨5000, 10, 6, [], [], []⟩ 32000 = .error f ∧
        mismatchAt f ⟨1500, 1 / 100, 6 / 1000⟩ ⟨5000, 10, 6, [], [], []⟩ :=
  song_init_annot_mismatch ⟨1500, 1 / 100, 6 / 1000⟩ ⟨5000, 10, 6, [], [], []⟩ 32000
    (Or.inl (by norm_num))

namespace Hvc

/-- Scalar Python values, as far as `Spectrogram.__init__` inspects them
with `type(...)` checks. -/
inductive PyScalar where
  | none
  | bool (b : Bool)
  | int (n : ℤ)
  | float (q : ℚ)
  | str (s : String)
  deriving DecidableEq

/-- Dynamically typed Python values: a scalar, or a list/tuple of
scalars.  (`__init__` only ever inspects one level of nesting — the
elements of `freq_cutoffs` — so deeper nesting is not modelled; Python's
cross-type numeric equality `500 == 500.0` is not modelled either, and no
validation branch below depends on it.) -/
inductive PyVal where
  | scalar (v : PyScalar)
  | list (l : List PyScalar)
  | tuple (l : List PyScalar)
  deriving DecidableEq

/-- Python `None`. -/
def pyNone : PyVal := .scalar .none

/-- A Python `bool` literal. -/
def pyBool (b : Bool) : PyVal := .scalar (.bool b)

/-- A Python `int` literal. -/
def pyIntV (n : ℤ) : PyVal := .scalar (.int n)

/-- A Python `float` literal. -/
def pyFloat (q : ℚ) : PyVal := .scalar (.float q)

/-- A Python `str` literal. -/
def pyStr (s : String) : PyVal := .scalar (.str s)

/-- `type(v) == int` in Python: true only for genuine ints (`bool` is a
subclass of `int` but `type(True) != int`). -/
def pyAsInt : PyVal → Option ℤ
  | .scalar (.int n) => some n
  | _ => Option.none

/-- Whether `type(v) == str`. -/
def pyIsStr : PyVal → Bool
  | .scalar (.str _) => true
  | _ => false

/-- `float(v)` for the values this module can meet: succeeds on ints,
floats and bools, fails on everything else.  (Numeric strings, which
Python would also convert, are not modelled; no claim depends on them.) -/
def pyFloatConv : PyVal → Option ℚ
  | .scalar (.int n) => some (n : ℚ)
  | .scalar (.float q) => some q
  | .scalar (.bool b) => some (if b then 1 else 0)
  | _ => Option.none

/-- Error kinds raised by `Spectrogram.__init__`: the source raises
`ValueError` or `TypeError` with a message. -/
inductive InitErr where
  | valueError
  | typeError
  deriving DecidableEq

/-- The window array built on lines 185-188: `np.hanning(nperseg)` or
`scipy.signal.slepian(nperseg, 4/nperseg)`.  The numeric taper contents
are abstracted; the constructor records which was built and from which
`nperseg`. -/
inductive WindowSpec where
  | hann (m : ℤ)
  | dpss (m : ℤ)
  deriving DecidableEq

/-- The attributes a successfully constructed `Spectrogram` carries.
`threshAttr = Option.none` means the attribute `self.thresh` was never
assigned (the source's line 243 assigns the converted value to the
misspelled `self.tresh` instead); `threshAttr = some Option.none` means
`self.thresh = None`. -/
structure SpectState where
  nperseg : ℤ
  noverlap : ℤ
  window : Option WindowSpec
  freqCutoffs : Option (List ℤ)
  filterFunc : Option String
  spectFunc : String
  logTransformSpect : Bool
  threshAttr : Option (Option ℚ)
  treshAttr : Option ℚ
  remove_dc : Bool
  deriving DecidableEq

/-- `Spectrogram.__init__` (lines 81-255), parameter defaults applied by
`callSpectrogramInit` below.  Mirrors the validation chain block by
block. -/
def spectrogram_init (nperseg noverlap freq_cutoffs window filter_func
    spect_func log_transform_spect thresh remove_dc : PyVal) :
    Except InitErr SpectState :=
  -- lines 153-156: nperseg and noverlap require values
  if nperseg = pyNone then .error .valueError
  else if noverlap = pyNone then .error .valueError
  else
    -- lines 157-161: spect_func defaults to 'scipy'
    let spect_func := if spect_func = pyNone then pyStr "scipy" else spect_func
    -- lines 174-188: window is None, or one of the strings Hann / dpss
    -- (built from nperseg, hence the function below)
    let windowRes : ℤ → Except InitErr (Option WindowSpec) := fun npseg =>
      match window with
      | PyVal.scalar .none => .ok Option.none
      | PyVal.scalar (.str s) =>
          if s = "Hann" then .ok (some (.hann npseg))
          else if s = "dpss" then .ok (some (.dpss npseg))
          else .error .valueError
      | _ => .error .typeError
    -- lines 190-208: freq_cutoffs; the default tuple (500, 10000) is
    -- first converted to a list, then the list checks run
    let fc := if freq_cutoffs = PyVal.tuple [.int 500, .int 10000]
              then PyVal.list [.int 500, .int 10000] else freq_cutoffs
    let fcRes : Except InitErr (Option (List ℤ)) :=
      match fc with
      | PyVal.scalar .none => .ok Option.none
      | PyVal.list l =>
          if l.length ≠ 2 then .error .valueError
          else
            let ints := l.filterMap (fun v => pyAsInt (.scalar v))
            if ints.length = l.length then .ok (some ints) else .error .valueError
      | _ => .error .typeError
    -- lines 210-221: filter_func.  The default assignment
    -- self.filterFunc = 'butter_bandpass' on line 211 is dead: the
    -- if/elif/else chain below it unconditionally reassigns the
    -- attribute, so a None filter_func ends up stored as None.
    let filterRes : Except InitErr (Option String) :=
      if filter_func ≠ pyNone ∧ pyIsStr filter_func = false
      then .error .typeError
      else if filter_func ∉ [pyStr "diff", pyStr "bandpass_filtfilt",
                             pyStr "butter_bandpass", pyNone]
      then .error .valueError
      else match filter_func with
           | PyVal.scalar (.str s) => .ok (some s)
           | _ => .ok Option.none
    -- lines 223-231: spect_func must be the string 'scipy' or 'mpl'
    let spectRes : Except InitErr String :=
      match spect_func with
      | PyVal.scalar (.str s) => if s = "scipy" ∨ s = "mpl" then .ok s else .error .valueError
      | _ => .error .typeError
    -- lines 233-238: log_transform_spect must be bool (raises ValueError)
    let logRes : Except InitErr Bool :=
      match log_transform_spect with
      | PyVal.scalar (.bool b) => .ok b
      | _ => .error .valueError
    -- lines 240-249: thresh.  A float or None is stored in self.thresh;
    -- anything else is converted with float(...) and stored in the
    -- misspelled self.tresh, leaving self.thresh unset; an inconvertible
    -- value raises ValueError.
    let threshRes : Except InitErr (Option (Option ℚ) × Option ℚ) :=
      match thresh with
      | PyVal.scalar (.float q) => .ok (some (some q), Option.none)
      | PyVal.scalar .none => .ok (some Option.none, Option.none)
      | other =>
          match pyFloatConv other with
          | some q => .ok (Option.none, some q)
          | Option.none => .error .valueError
    -- lines 251-255: remove_dc must be bool (raises TypeError)
    let dcRes : Except InitErr Bool :=
      match remove_dc with
      | PyVal.scalar (.bool b) => .ok b
      | _ => .error .typeError
    -- lines 162-172: nperseg and noverlap must have type int; then the
    -- remaining blocks run in source order
    match pyAsInt nperseg with
    | Option.none => .error .typeError
    | some npseg =>
      match pyAsInt noverlap with
      | Option.none => .error .typeError
      | some novl =>
        match windowRes npseg with
        | .error e => .error e
        | .ok windowVal =>
          match fcRes with
          | .error e => .error e
          | .ok fcVal =>
            match filterRes with
            | .error e => .error e
            | .ok filterVal =>
              match spectRes with
              | .error e => .error e
              | .ok spectVal =>
                match logRes with
                | .error e => .error e
                | .ok logVal =>
                  match threshRes with
                  | .error e => .error e
                  | .ok (threshVal, treshVal) =>
                    match dcRes with
                    | .error e => .error e
                    | .ok dcVal =>
                        .ok { nperseg := npseg, noverlap := novl,
                              window := windowVal, freqCutoffs := fcVal,
                              filterFunc := filterVal, spectFunc := spectVal,
                              logTransformSpect := logVal,
                              threshAttr := threshVal, treshAttr := treshVal,
                              remove_dc := dcVal }

/-- The keyword parameters `Spectrogram.__init__` accepts, with their
default values (signature lines 81-90). -/
def spectrogramInitDefaults : List (String × PyVal) :=
  [("nperseg", pyNone),
   ("noverlap", pyNone),
   ("freq_cutoffs", PyVal.tuple [.int 500, .int 10000]),
   ("window", pyNone),
   ("filter_func", pyNone),
   ("spect_func", pyNone),
   ("log_transform_spect", pyBool true),
   ("thresh", pyFloat (-4)),
   ("remove_dc", pyBool true)]

/-- The value a keyword argument takes in a call: the caller's value if
supplied, else the signature default. -/
def argVal (kwargs : List (String × PyVal)) (name : String) : PyVal :=
  match kwargs.lookup name with
  | some v => v
  | Option.none => ((spectrogramInitDefaults.lookup name).getD pyNone)

/-- Errors observable when calling `Spectrogram(...)` with keyword
arguments: Python raises `TypeError: unexpected keyword argument` for a
name not in the signature before the body runs. -/
inductive CallErr where
  | unexpectedKeyword
  | body (e : InitErr)
  deriving DecidableEq

/-- Python call semantics for `Spectrogram(**kwargs)`: reject unknown
keyword names, then run `__init__` with caller values over defaults. -/
def callSpectrogramInit (kwargs : List (String × PyVal)) : Except CallErr SpectState :=
  if kwargs.any (fun kv => ¬ (spectrogramInitDefaults.map Prod.fst).contains kv.1) then
    .error .unexpectedKeyword
  else
    match spectrogram_init (argVal kwargs "nperseg") (argVal kwargs "noverlap")
      (argVal kwargs "freq_cutoffs") (argVal kwargs "window")
      (argVal kwargs "filter_func") (argVal kwargs "spect_func")
      (argVal kwargs "log_transform_spect") (argVal kwargs "thresh")
      (argVal kwargs "remove_dc") with
    | .ok s => .ok s
    | .error e => .error (.body e)

/-- The attribute read `self.thresh` performed by the clamp step of
`Spectrogram.make` (line 348, `if self.thresh is not None`): raises
`AttributeError` when the attribute was never assigned. -/
def make_thresh_access (s : SpectState) : Except Unit (Option ℚ) :=
  match s.threshAttr with
  | some v => .ok v
  | Option.none => .error ()

/-- The state produced by constructing a `Spectrogram` with
`nperseg=512, noverlap=480, thresh=5` and the remaining defaults: the
converted 5.0 lands in the misspelled `tresh` attribute and `thresh` is
never assigned. -/
def spectStateThreshInt : SpectState :=
  { nperseg := 512, noverlap := 480, window := Option.none,
    freqCutoffs := some [500, 10000], filterFunc := Option.none,
    spectFunc := "scipy", logTransformSpect := true,
    threshAttr := Option.none, treshAttr := some 5, remove_dc := true }

end Hvc

/-- C7 (counterexample to the claim as stated): construction with
`nperseg = 0` succeeds, and construction with `noverlap = 5 >= nperseg = 2`
also succeeds — no positivity or overlap-below-segment-length validation
exists in `Spectrogram.__init__`. -/
theorem spectrogram_init_no_range_check :
    (spectrogram_init (pyIntV 0) (pyIntV 0) (PyVal.tuple [.int 500, .int 10000])
        pyNone pyNone pyNone (pyBool true) (pyFloat (-4)) (pyBool true)).isOk = true ∧
      (spectrogram_init (pyIntV 2) (pyIntV 5) (PyVal.tuple [.int 500, .int 10000])
        pyNone pyNone pyNone (pyBool true) (pyFloat (-4)) (pyBool true)).isOk = true := by
  constructor <;> rfl

/-- C7 (amended): `Spectrogram.__init__` validates only the Python types
of `nperseg` and `noverlap` — any two ints are accepted regardless of
sign, size or their relative order, while a non-int value for either
fails with a `TypeError` at construction time.  No `nperseg > 0`,
`noverlap >= 0` or `noverlap < nperseg` check is performed. -/
theorem spectrogram_init_type_checks_only (n o : ℤ) :
    spectrogram_init (pyIntV n) (pyIntV o) (PyVal.tuple [.int 500, .int 10000])
        pyNone pyNone pyNone (pyBool true) (pyFloat (-4)) (pyBool true)
      = .ok { nperseg := n, noverlap := o, window := Option.none,
              freqCutoffs := some [500, 10000], filterFunc := Option.none,
              spectFunc := "scipy", logTransformSpect := true,
              threshAttr := some (some (-4)), treshAttr := Option.none,
              remove_dc := true } ∧
      spectrogram_init (pyFloat 512) (pyIntV 32) (PyVal.tuple [.int 500, .int 10000])
          pyNone pyNone pyNone (pyBool true) (pyFloat (-4)) (pyBool true)
        = .error .typeError ∧
      spectrogram_init (pyIntV 512) (pyStr "x") (PyVal.tuple [.int 500, .int 10000])
          pyNone pyNone pyNone (pyBool true) (pyFloat (-4)) (pyBool true)
        = .error .typeError := by
  exact ⟨rfl, rfl, rfl⟩

/-- C8: the `Spectrogram.__init__` in this repository has no `ref`
parameter, so every call that passes a preset identifier — exactly what
the repository's own tests do (`Spectrogram(ref='tachibana')`, also with
conflicting explicit fields) — fails with `TypeError: unexpected keyword
argument` instead of accepting the preset. -/
theorem spectrogram_ref_keyword_rejected :
    callSpectrogramInit [("ref", pyStr "tachibana")] = .error .unexpectedKeyword ∧
      callSpectrogramInit [("ref", pyStr "koumura")] = .error .unexpectedKeyword ∧
      callSpectrogramInit [("nperseg", pyIntV 512), ("ref", pyStr "tachibana")]
        = .error .unexpectedKeyword ∧
      callSpectrogramInit [("spect_func", pyStr "scipy"), ("ref", pyStr "tachibana")]
        = .error .unexpectedKeyword := by
  exact ⟨rfl, rfl, rfl, rfl⟩

/-- C6: constructing with the clamp threshold given as the int `5`
succeeds, but the converted value is stored in the misspelled attribute
`tresh` (line 243) and `self.thresh` is never assigned, so the clamp
step of `Spectrogram.make` (line 348, `if self.thresh is not None`)
fails with `AttributeError` — the validation outcome is deferred past
construction, contradicting the stated propagation policy. -/
theorem spectrogram_init_thresh_slip :
    spectrogram_init (pyIntV 512) (pyIntV 480) (PyVal.tuple [.int 500, .int 10000])
        pyNone pyNone pyNone (pyBool true) (pyIntV 5) (pyBool true)
      = .ok spectStateThreshInt ∧
      spectStateThreshInt.threshAttr = Option.none ∧
      spectStateThreshInt.treshAttr = some 5 ∧
      make_thresh_access spectStateThreshInt = .error () := by
  exact ⟨rfl, rfl, rfl, rfl⟩

namespace Hvc

/-- Python `int(q)` for a float: truncation toward zero. -/
def pyIntTrunc (q : ℚ) : ℤ :=
  if 0 ≤ q then ⌊q⌋ else ⌈q⌉

/-- Lines 855-863 of `make_syl_spects`: the local `syl_spect_width_Hz =
int(syl_spect_width * self.sampFreq)` exists exactly when
`syl_spect_width > 0`; `some w` models the bound local, `none` its
absence (`'syl_spect_width_Hz' in locals()` false).  The cast to ℕ is
faithful for the positive sample rates of real recordings. -/
def widthHzOf (sampFreq syl_spect_width : ℚ) : Option ℕ :=
  if 0 < syl_spect_width then some (pyIntTrunc (syl_spect_width * sampFreq)).toNat
  else Option.none

/-- `int(round(width_diff / 2))` (line 889) for a nonnegative integer
`width_diff`: Python's round-half-to-even at the half-integers.  Written
with natural-number arithmetic so it evaluates in the kernel; the lemma
`left_width_eq_roundHalfEven` below checks it against the rounding
function itself. -/
def left_width (wd : ℕ) : ℕ :=
  if wd % 2 = 0 then wd / 2
  else if (wd / 2) % 2 = 0 then wd / 2 else wd / 2 + 1

/-- Python slice `l[a:b]` for in-range nonnegative bounds. -/
def pySlice (l : List ℚ) (a b : ℕ) : List ℚ :=
  (l.take b).drop a

/-- Python slice `l[-w:]`: the last `w` elements. -/
def lastN (l : List ℚ) (w : ℕ) : List ℚ :=
  l.drop (l.length - w)

/-- Lines 883-900 of `make_syl_spects`: the audio slice taken for one
selected segment, together with the index its first sample comes from.
With a fixed width the slice is centred via `left_width`/`right_width`,
clamped to the start of the recording when the left pad would reach
before sample 0 and to the end when the right edge would run past the
recording; without a fixed width it is the native `onset:offset`
slice. -/
def sylSlice (raw : List ℚ) (widthHz : Option ℕ) (onset offset : ℕ) : ℕ × List ℚ :=
  match widthHz with
  | Option.none => (onset, pySlice raw onset offset)
  | some w =>
      let wd := w - (offset - onset)
      let lw := left_width wd
      let rwd := wd - lw
      if onset < lw then (0, pySlice raw 0 w)
      else if raw.length < offset + rwd then (raw.length - w, lastN raw w)
      else (onset - lw, pySlice raw (onset - lw) (offset + rwd))

/-- One entry of the syllable list built by `make_syl_spects`
(lines 915-926).  The spectrogram/frequency-bins/time-bins triple is
abstracted into one value of type `S`, computed by the caller-supplied
spectrogram maker; `spect = Option.none` models the three attributes set
to the `np.nan` placeholder after a caught `WindowError`
(lines 905-913).  `sliceStart` records the lower bound of the audio
slice the source computes, so centring can be stated. -/
structure Syl (S : Type) where
  sylAudio : List ℚ
  sliceStart : ℕ
  spect : Option S
  index : ℕ
  label : Char

/-- Errors raised by `make_syl_spects`: the `ValueError` of lines
864-867 (fixed width longer than the file) and the `ValueError` of lines
876-880 (some segment longer than the fixed width, raised with the
segment's index). -/
inductive MakeSylErr where
  | widthTooLong
  | sylTooLong (ind : ℕ)
  deriving DecidableEq

/-- The syllable object built for one selected segment: slice the audio
(lines 883-900), try the spectrogram and catch the window error
(lines 902-913), record index and label (lines 915-924). -/
def mkOneSyl {S : Type} (mk : List ℚ → Except Unit S) (raw : List ℚ)
    (widthHz : Option ℕ) (ind : ℕ) (lab : Char) (onset offset : ℕ) : Syl S :=
  let sl := sylSlice raw widthHz onset offset
  { sylAudio := sl.2, sliceStart := sl.1,
    spect := match mk sl.2 with
             | .ok s => some s
             | .error _ => Option.none,
    index := ind, label := lab }

/-- The `for ind, (label, onset, offset) in enumerate(zip(...))` loop of
`make_syl_spects` (lines 873-926): per segment, first the
duration-versus-fixed-width check (before the selection-mask test, as in
the source), then the mask test and the syllable construction.  `zip`
truncates to the shortest list, as in Python. -/
def mkSyls {S : Type} (mk : List ℚ → Except Unit S) (raw : List ℚ)
    (mask : List Bool) (widthHz : Option ℕ) :
    ℕ → List Char → List ℕ → List ℕ → Except MakeSylErr (List (Syl S))
  | _, [], _, _ => .ok []
  | _, _ :: _, [], _ => .ok []
  | _, _ :: _, _ :: _, [] => .ok []
  | ind, lab :: ls, onset :: ons, offset :: offs =>
    let rest := mkSyls mk raw mask widthHz (ind + 1) ls ons offs
    let step := if mask.getD ind false then
                  Except.map (fun syls => mkOneSyl mk raw widthHz ind lab onset offset :: syls) rest
                else rest
    match widthHz with
    | some w => if w < offset - onset then .error (.sylTooLong ind) else step
    | Option.none => step

/-- The `Song` state `make_syl_spects` reads: raw audio, sample rate,
segment boundaries in sample units, labels, and the boolean selection
mask set by `set_syls_to_use`.  Sample boundaries are modelled as
naturals — they are nonnegative sample indices; Python's
negative-index slicing is never exercised. -/
structure Song where
  rawAudio : List ℚ
  sampFreq : ℚ
  onsets_Hz : List ℕ
  offsets_Hz : List ℕ
  labels : List Char
  syls_to_use : List Bool

/-- `Song.make_syl_spects(spect_params, syl_spect_width)` (lines
804-928), with the numeric spectrogram computation abstracted as `mk`
(a `WindowError` is its `.error` case).  Converts the width to samples
when positive, rejects a width longer than the file (lines 864-867),
then runs the per-segment loop. -/
def make_syl_spects {S : Type} (mk : List ℚ → Except Unit S) (song : Song)
    (syl_spect_width : ℚ) : Except MakeSylErr (List (Syl S)) :=
  match widthHzOf song.sampFreq syl_spect_width with
  | some w =>
      if song.rawAudio.length < w then .error .widthTooLong
      else mkSyls mk song.rawAudio song.syls_to_use (some w) 0
        song.labels song.onsets_Hz song.offsets_Hz
  | Option.none =>
      mkSyls mk song.rawAudio song.syls_to_use Option.none 0
        song.labels song.onsets_Hz song.offsets_Hz

/-- The segments the selection mask keeps, with their loop indices:
the `(ind, label, onset, offset)` tuples for which
`self.syls_to_use[ind]` holds. -/
def selSegs (mask : List Bool) :
    ℕ → List Char → List ℕ → List ℕ → List (ℕ × Char × ℕ × ℕ)
  | _, [], _, _ => []
  | _, _ :: _, [], _ => []
  | _, _ :: _, _ :: _, [] => []
  | ind, lab :: ls, onset :: ons, offset :: offs =>
    if mask.getD ind false then
      (ind, lab, onset, offset) :: selSegs mask (ind + 1) ls ons offs
    else selSegs mask (ind + 1) ls ons offs

/-- The selected segments of a song, in loop order. -/
def selectedSegs (song : Song) : List (ℕ × Char × ℕ × ℕ) :=
  selSegs song.syls_to_use 0 song.labels song.onsets_Hz song.offsets_Hz

/-- `left_width` agrees with `int(round(width_diff / 2))` under Python's
round-half-to-even. -/
theorem left_width_eq_roundHalfEven (wd : ℕ) :
    (left_width wd : ℤ) = roundHalfEven ((wd : ℚ) / 2) := by
  rcases Nat.even_or_odd wd with ⟨k, hk⟩ | ⟨k, hk⟩
  · subst hk
    have hq : ((k + k : ℕ) : ℚ) / 2 = ((k : ℤ) : ℚ) := by push_cast; ring
    have hfl : ⌊((k + k : ℕ) : ℚ) / 2⌋ = (k : ℤ) := by rw [hq, Int.floor_intCast]
    have hlw : left_width (k + k) = k := by
      simp only [left_width]
      rw [if_pos (by omega)]
      omega
    rw [hlw]
    simp only [roundHalfEven, hfl, hq]
    norm_num
  · subst hk
    have hq : ((2 * k + 1 : ℕ) : ℚ) / 2 = ((k : ℤ) : ℚ) + 1 / 2 := by push_cast; ring
    have hfl : ⌊((2 * k + 1 : ℕ) : ℚ) / 2⌋ = (k : ℤ) := by
      rw [hq, Int.floor_int_add]
      norm_num
    have hlw : left_width (2 * k + 1)
        = if k % 2 = 0 then k else k + 1 := by
      simp only [left_width]
      rw [if_neg (by omega)]
      have h2 : (2 * k + 1) / 2 = k := by omega
      rw [h2]
    rw [hlw]
    simp only [roundHalfEven, hfl]
    have hfr2 : ((2 * k + 1 : ℕ) : ℚ) / 2 - ((k : ℤ) : ℚ) = 1 / 2 := by push_cast; ring
    rw [hfr2]
    rw [if_neg (show ¬ ((1 : ℚ) / 2 < 1 / 2) by norm_num)]
    rw [if_neg (show ¬ ((1 : ℚ) / 2 < 1 / 2) by norm_num)]
    by_cases hk2 : k % 2 = 0
    · rw [if_pos hk2, if_pos (show (k : ℤ) % 2 = 0 by omega)]
    · rw [if_neg hk2, if_neg (show ¬ (k : ℤ) % 2 = 0 by omega)]
      push_cast
      ring

/-- The left pad never exceeds the padding difference. -/
theorem left_width_le (wd : ℕ) : left_width wd ≤ wd := by
  simp only [left_width]
  split
  · omega
  · split <;> omega

/-- Length of an in-range Python slice. -/
theorem pySlice_length (l : List ℚ) (a b : ℕ) (hb : b ≤ l.length) :
    (pySlice l a b).length = b - a := by
  simp only [pySlice, List.length_drop, List.length_take]
  omega

/-- The audio slice stored in a built syllable. -/
theorem mkOneSyl_sylAudio {S : Type} (mk : List ℚ → Except Unit S) (raw : List ℚ)
    (wh : Option ℕ) (ind : ℕ) (lab : Char) (a b : ℕ) :
    (mkOneSyl mk raw wh ind lab a b).sylAudio = (sylSlice raw wh a b).2 := rfl

/-- A built syllable's spectrogram is the nan placeholder exactly when
the spectrogram maker fails on its audio slice. -/
theorem mkOneSyl_spect_isNone {S : Type} (mk : List ℚ → Except Unit S) (raw : List ℚ)
    (wh : Option ℕ) (ind : ℕ) (lab : Char) (a b : ℕ) :
    (mkOneSyl mk raw wh ind lab a b).spect.isNone = !(mk (sylSlice raw wh a b).2).isOk := by
  cases h : mk (sylSlice raw wh a b).2 <;>
    simp [mkOneSyl, h, Except.isOk, Except.toBool]

/-- Without a fixed width the per-segment loop never raises: it returns
exactly the selected segments, each materialized with `mkOneSyl`. -/
theorem mkSyls_none_eq {S : Type} (mk : List ℚ → Except Unit S) (raw : List ℚ)
    (mask : List Bool) :
    ∀ (ls : List Char) (ind : ℕ) (ons offs : List ℕ),
      mkSyls mk raw mask Option.none ind ls ons offs
        = .ok ((selSegs mask ind ls ons offs).map
            (fun p => mkOneSyl mk raw Option.none p.1 p.2.1 p.2.2.1 p.2.2.2)) := by
  intro ls
  induction ls with
  | nil => intro ind ons offs; rfl
  | cons lab ls ih =>
      intro ind ons offs
      cases ons with
      | nil => rfl
      | cons onset ons =>
          cases offs with
          | nil => rfl
          | cons offset offs =>
              simp only [mkSyls, selSegs, ih]
              split
              next h => simp [h, Except.map]
              next h => simp [h]

/-- With a fixed width no shorter than every segment duration, the
per-segment loop returns exactly the selected segments. -/
theorem mkSyls_some_eq {S : Type} (mk : List ℚ → Except Unit S) (raw : List ℚ)
    (mask : List Bool) (w : ℕ) :
    ∀ (ls : List Char) (ind : ℕ) (ons offs : List ℕ),
      (∀ j a b, ons.get? j = some a → offs.get? j = some b → b - a ≤ w) →
      mkSyls mk raw mask (some w) ind ls ons offs
        = .ok ((selSegs mask ind ls ons offs).map
            (fun p => mkOneSyl mk raw (some w) p.1 p.2.1 p.2.2.1 p.2.2.2)) := by
  intro ls
  induction ls with
  | nil => intro ind ons offs _; rfl
  | cons lab ls ih =>
      intro ind ons offs h
      cases ons with
      | nil => rfl
      | cons onset ons =>
          cases offs with
          | nil => rfl
          | cons offset offs =>
              have hhead : offset - onset ≤ w := h 0 onset offset rfl rfl
              have htail : ∀ j a b, ons.get? j = some a → offs.get? j = some b → b - a ≤ w :=
                fun j a b h1 h2 => h (j + 1) a b (by simpa using h1) (by simpa using h2)
              simp only [mkSyls, selSegs, ih _ _ _ htail]
              rw [if_neg (by omega)]
              split
              next h => simp [h, Except.map]
              next h => simp [h]

/-- If any segment (selected or not) is longer than the fixed width, the
per-segment loop raises the segment-too-long error. -/
theorem mkSyls_error_overlong {S : Type} (mk : List ℚ → Except Unit S) (raw : List ℚ)
    (mask : List Bool) (w : ℕ) :
    ∀ (j : ℕ) (ls : List Char) (ind : ℕ) (ons offs : List ℕ) (lab : Char) (a b : ℕ),
      ls.get? j = some lab → ons.get? j = some a → offs.get? j = some b → w < b - a →
      ∃ k, mkSyls mk raw mask (some w) ind ls ons offs
        = .error (.sylTooLong k) := by
  intro j
  induction j with
  | zero =>
      intro ls ind ons offs lab a b h1 h2 h3 hlt
      cases ls with
      | nil => simp at h1
      | cons lab0 ls =>
          cases ons with
          | nil => simp at h2
          | cons onset ons =>
              cases offs with
              | nil => simp at h3
              | cons offset offs =>
                  obtain rfl : onset = a := by simpa using h2
                  obtain rfl : offset = b := by simpa using h3
                  exact ⟨ind, by simp [mkSyls, hlt]⟩
  | succ j ih =>
      intro ls ind ons offs lab a b h1 h2 h3 hlt
      cases ls with
      | nil => simp at h1
      | cons lab0 ls =>
          cases ons with
          | nil => simp at h2
          | cons onset ons =>
              cases offs with
              | nil => simp at h3
              | cons offset offs =>
                  by_cases hcur : w < offset - onset
                  · exact ⟨ind, by simp [mkSyls, hcur]⟩
                  · obtain ⟨k, hk⟩ := ih ls (ind + 1) ons offs lab a b
                      (by simpa using h1) (by simpa using h2) (by simpa using h3) hlt
                    refine ⟨k, ?_⟩
                    simp only [mkSyls, hk]
                    rw [if_neg hcur]
                    split
                    next h => simp [Except.map]
                    next h => rfl

/-- A segment that exists at position `j` of the three zipped lists and
is kept by the mask appears, with its loop index, among the selected
segments. -/
theorem selSegs_mem (mask : List Bool) :
    ∀ (j : ℕ) (ls : List Char) (ind : ℕ) (ons offs : List ℕ) (lab : Char) (a b : ℕ),
      ls.get? j = some lab → ons.get? j = some a → offs.get? j = some b →
      mask.getD (ind + j) false = true →
      (ind + j, lab, a, b) ∈ selSegs mask ind ls ons offs := by
  intro j
  induction j with
  | zero =>
      intro ls ind ons offs lab a b h1 h2 h3 hm
      cases ls with
      | nil => simp at h1
      | cons lab0 ls =>
          cases ons with
          | nil => simp at h2
          | cons onset ons =>
              cases offs with
              | nil => simp at h3
              | cons offset offs =>
                  obtain rfl : lab0 = lab := by simpa using h1
                  obtain rfl : onset = a := by simpa using h2
                  obtain rfl : offset = b := by simpa using h3
                  simp only [Nat.add_zero] at hm ⊢
                  rw [List.getD_eq_getElem?_getD] at hm
                  simp [selSegs, hm]
  | succ j ih =>
      intro ls ind ons offs lab a b h1 h2 h3 hm
      cases ls with
      | nil => simp at h1
      | cons lab0 ls =>
          cases ons with
          | nil => simp at h2
          | cons onset ons =>
              cases offs with
              | nil => simp at h3
              | cons offset offs =>
                  have hsh : ind + (j + 1) = (ind + 1) + j := by omega
                  rw [hsh] at hm ⊢
                  have := ih ls (ind + 1) ons offs lab a b
                    (by simpa using h1) (by simpa using h2) (by simpa using h3) hm
                  simp only [selSegs]
                  split
                  · exact List.mem_cons_of_mem _ this
                  · exact this

/-- A spectrogram maker that always succeeds (used to instantiate the
abstracted numeric spectrogram computation at concrete inputs). -/
def specOkUnit : List ℚ → Except Unit Unit := fun _ => .ok ()

/-- A spectrogram maker that raises the window error exactly on audio
slices shorter than 3 samples (a window of 3 is longer than the
signal). -/
def windowFailShort : List ℚ → Except Unit Unit :=
  fun l => if l.length < 3 then .error () else .ok ()

/-- A 20-sample recording whose sample at index `n` has value `n`, so a
slice's position in the file can be read off its values. -/
def rampAudio : List ℚ := (List.range 20).map (fun n : ℕ => (n : ℚ))

/-- One-segment song on `rampAudio`: segment `[10, 12)`, selected. -/
def songOneSeg : Song :=
  { rawAudio := rampAudio, sampFreq := 1, onsets_Hz := [10], offsets_Hz := [12],
    labels := ['-'], syls_to_use := [true] }

/-- Two-segment song: the first selected segment `[0, 0)` has an empty
audio slice (its spectrogram computation fails under
`windowFailShort`), the second `[1, 4)` is long enough. -/
def songTwoSeg : Song :=
  { rawAudio := [1, 2, 3, 4], sampFreq := 32000, onsets_Hz := [0, 1],
    offsets_Hz := [0, 4], labels := ['a', 'b'], syls_to_use := [true, true] }

/-- Song with a single deselected segment `[0, 8)` of duration 8,
longer than a fixed width of 5 samples. -/
def songDeselLong : Song :=
  { rawAudio := List.replicate 10 0, sampFreq := 1, onsets_Hz := [0],
    offsets_Hz := [8], labels := ['-'], syls_to_use := [false] }

end Hvc

/-- C4: if exactly one of the selected segments makes the spectrogram
computation raise the window error, `make_syl_spects` (with the default
width of -1) still returns one syllable per selected segment; exactly
one syllable carries the nan placeholder, it is the one whose slice
failed, and every segment whose computation succeeds gets its computed
spectrogram. -/
theorem make_syl_spects_one_window_error {S : Type} (mk : List ℚ → Except Unit S)
    (song : Song) (N : ℕ)
    (hN : (selectedSegs song).length = N)
    (hone : (selectedSegs song).countP
        (fun p => !(mk (sylSlice song.rawAudio Option.none p.2.2.1 p.2.2.2).2).isOk) = 1) :
    ∃ syls, make_syl_spects mk song (-1) = .ok syls ∧
      syls.length = N ∧
      syls.countP (fun s => s.spect.isNone) = 1 ∧
      ∀ s ∈ syls, s.spect.isNone = !(mk s.sylAudio).isOk ∧
        ∀ v, mk s.sylAudio = .ok v → s.spect = some v := by
  have hw : widthHzOf song.sampFreq (-1) = Option.none := by
    simp only [widthHzOf]
    rw [if_neg (show ¬ ((0 : ℚ) < -1) by norm_num)]
  have hrun : make_syl_spects mk song (-1)
      = .ok ((selectedSegs song).map
          (fun p => mkOneSyl mk song.rawAudio Option.none p.1 p.2.1 p.2.2.1 p.2.2.2)) := by
    unfold make_syl_spects
    rw [hw]
    exact mkSyls_none_eq mk song.rawAudio song.syls_to_use song.labels 0
      song.onsets_Hz song.offsets_Hz
  refine ⟨_, hrun, ?_, ?_, ?_⟩
  · simpa using hN
  · rw [List.countP_map]
    rw [List.countP_congr (fun p _ => ?_)]
    · exact hone
    · simp only [Function.comp]
      rw [mkOneSyl_spect_isNone]
  · intro s hs
    obtain ⟨p, hp, rfl⟩ := List.mem_map.mp hs
    refine ⟨mkOneSyl_spect_isNone mk song.rawAudio Option.none p.1 p.2.1 p.2.2.1 p.2.2.2, ?_⟩
    intro v hv
    have hv2 : mk (sylSlice song.rawAudio Option.none p.2.2.1 p.2.2.2).2 = .ok v := hv
    simp [mkOneSyl, hv2]

/-- C4 (witness): on `songTwoSeg` under `windowFailShort`, the first of
the two selected segments fails, and materialization returns two
syllables with exactly the first marked unavailable. -/
theorem make_syl_spects_one_window_error_witness :
    ∃ syls, make_syl_spects windowFailShort songTwoSeg (-1) = .ok syls ∧
      syls.length = 2 ∧
      syls.countP (fun s => s.spect.isNone) = 1 ∧
      ∀ s ∈ syls, s.spect.isNone = !(windowFailShort s.sylAudio).isOk ∧
        ∀ v, windowFailShort s.sylAudio = .ok v → s.spect = some v :=
  make_syl_spects_one_window_error windowFailShort songTwoSeg 2 (by decide) (by decide)

/-- C10: whenever a fixed width is set (and is not longer than the
recording) and any segment of the song — here one that the selection
mask excludes — is longer than that width, `make_syl_spects` aborts
with the segment-too-long error. -/
theorem make_syl_spects_width_check_ignores_mask {S : Type}
    (mk : List ℚ → Except Unit S) (song : Song) (width : ℚ) (w : ℕ)
    (j : ℕ) (lab : Char) (a b : ℕ)
    (hw : widthHzOf song.sampFreq width = some w)
    (hlen : ¬ song.rawAudio.length < w)
    (hlab : song.labels.get? j = some lab)
    (hon : song.onsets_Hz.get? j = some a)
    (hoff : song.offsets_Hz.get? j = some b)
    (hdur : w < b - a)
    (hmask : song.syls_to_use.getD j false = false) :
    ∃ k, make_syl_spects mk song width = .error (.sylTooLong k) := by
  obtain ⟨k, hk⟩ := mkSyls_error_overlong mk song.rawAudio song.syls_to_use w j
    song.labels 0 song.onsets_Hz song.offsets_Hz lab a b hlab hon hoff hdur
  refine ⟨k, ?_⟩
  unfold make_syl_spects
  rw [hw]
  show (if song.rawAudio.length < w then Except.error MakeSylErr.widthTooLong
        else mkSyls mk song.rawAudio song.syls_to_use (some w) 0
          song.labels song.onsets_Hz song.offsets_Hz) = _
  rw [if_neg hlen]
  exact hk

/-- C10 (witness): `songDeselLong` has its only segment (duration 8)
deselected, yet a fixed width of 5 samples aborts materialization. -/
theorem make_syl_spects_width_check_ignores_mask_witness :
    ∃ k, make_syl_spects specOkUnit songDeselLong 5
      = .error (MakeSylErr.sylTooLong k) :=
  make_syl_spects_width_check_ignores_mask specOkUnit songDeselLong 5 5 0 '-' 0 8
    (by norm_num [Hvc.widthHzOf, Hvc.pyIntTrunc, Hvc.songDeselLong]; rfl) (by decide) rfl rfl rfl
    (by decide) rfl

/-- C3 (counterexample to the claim as stated): on `songOneSeg` (segment
`[10, 12)`, duration 2, fixed width 5 samples, interior of the
recording) the materialized slice starts at sample 8, so the left
padding is `10 - 8 = 2`, not `floor((5-2)/2) = 1`: when the padding
difference `w - d = 3` is odd, Python's `int(round(3/2))` rounds half to
even and here puts the extra sample on the left, not the right. -/
theorem make_syl_spects_centering_counterexample :
    Except.map (fun syls => syls.map (fun s => (s.sliceStart, s.sylAudio.length)))
        (make_syl_spects specOkUnit songOneSeg 5) = Except.ok [(8, 5)] ∧
      ¬ ((10 : ℕ) - 8 = (5 - (12 - 10)) / 2) := by
  constructor
  · have hw5 : widthHzOf songOneSeg.sampFreq 5 = some 5 := by
      norm_num [Hvc.widthHzOf, Hvc.pyIntTrunc, Hvc.songOneSeg]; rfl
    unfold make_syl_spects
    rw [hw5]
    rfl
  · decide

/-- C3 (amended): for every selected segment of native duration
`d = offset - onset < w` samples lying away from the recording
boundaries, `make_syl_spects` with a fixed width of `w` samples produces
an audio slice of exactly `w` samples whose left padding equals
`left_width (w - d)` — Python's `int(round((w-d)/2))` under
round-half-to-even — which is `floor((w-d)/2)` when `w - d` is even or
`w - d ≡ 1 (mod 4)`, and `floor((w-d)/2) + 1` (the extra sample on the
left) when `w - d ≡ 3 (mod 4)`. -/
theorem make_syl_spects_fixed_width_centering {S : Type} (mk : List ℚ → Except Unit S)
    (song : Song) (width : ℚ) (w : ℕ) (i : ℕ) (lab : Char) (onset offset : ℕ)
    (hw : widthHzOf song.sampFreq width = some w)
    (hwlen : ¬ song.rawAudio.length < w)
    (hall : ∀ j a b, song.onsets_Hz.get? j = some a →
      song.offsets_Hz.get? j = some b → b - a ≤ w)
    (hlab : song.labels.get? i = some lab)
    (hon : song.onsets_Hz.get? i = some onset)
    (hoff : song.offsets_Hz.get? i = some offset)
    (hsel : song.syls_to_use.getD i false = true)
    (hoo : onset ≤ offset)
    (hd : offset - onset < w)
    (hleft : left_width (w - (offset - onset)) ≤ onset)
    (hright : offset + ((w - (offset - onset)) - left_width (w - (offset - onset)))
        ≤ song.rawAudio.length) :
    ∃ syls, make_syl_spects mk song width = .ok syls ∧
      ∃ s ∈ syls, s.index = i ∧
        s.sliceStart = onset - left_width (w - (offset - onset)) ∧
        s.sylAudio.length = w := by
  have hrun : make_syl_spects mk song width
      = .ok ((selSegs song.syls_to_use 0 song.labels song.onsets_Hz song.offsets_Hz).map
          (fun p => mkOneSyl mk song.rawAudio (some w) p.1 p.2.1 p.2.2.1 p.2.2.2)) := by
    unfold make_syl_spects
    rw [hw]
    show (if song.rawAudio.length < w then Except.error MakeSylErr.widthTooLong
          else mkSyls mk song.rawAudio song.syls_to_use (some w) 0
            song.labels song.onsets_Hz song.offsets_Hz) = _
    rw [if_neg hwlen]
    exact mkSyls_some_eq mk song.rawAudio song.syls_to_use w song.labels 0
      song.onsets_Hz song.offsets_Hz hall
  have hmem := selSegs_mem song.syls_to_use i song.labels 0
    song.onsets_Hz song.offsets_Hz lab onset offset hlab hon hoff (by simpa using hsel)
  have hdle : offset - onset ≤ w := hall i onset offset hon hoff
  have hlw_le : left_width (w - (offset - onset)) ≤ w - (offset - onset) := left_width_le _
  have hs1 : sylSlice song.rawAudio (some w) onset offset
      = (onset - left_width (w - (offset - onset)),
         pySlice song.rawAudio (onset - left_width (w - (offset - onset)))
           (offset + ((w - (offset - onset)) - left_width (w - (offset - onset))))) := by
    simp only [sylSlice]
    rw [if_neg (not_lt.mpr hleft), if_neg (not_lt.mpr hright)]
  refine ⟨_, hrun, mkOneSyl mk song.rawAudio (some w) i lab onset offset,
    List.mem_map_of_mem _ (by simpa using hmem), rfl, ?_, ?_⟩
  · show (sylSlice song.rawAudio (some w) onset offset).1 = _
    rw [hs1]
  · show (sylSlice song.rawAudio (some w) onset offset).2.length = w
    rw [hs1]
    rw [pySlice_length _ _ _ hright]
    omega

/-- C3 (witness): the amended centring theorem at `songOneSeg` with
width 5: the slice is `[8, 13)`, of length 5, with left padding
`left_width 3 = 2`. -/
theorem make_syl_spects_fixed_width_centering_witness :
    ∃ syls, make_syl_spects specOkUnit songOneSeg 5 = .ok syls ∧
      ∃ s ∈ syls, s.index = 0 ∧
        s.sliceStart = 10 - left_width (5 - (12 - 10)) ∧
        s.sylAudio.length = 5 :=
  make_syl_spects_fixed_width_centering specOkUnit songOneSeg 5 5 0 '-' 10 12
    (by norm_num [Hvc.widthHzOf, Hvc.pyIntTrunc, Hvc.songOneSeg]; rfl)
    (by decide)
    (by
      intro j a b h1 h2
      cases j with
      | zero =>
          obtain rfl : 10 = a := by simpa [Hvc.songOneSeg] using h1
          obtain rfl : 12 = b := by simpa [Hvc.songOneSeg] using h2
          decide
      | succ j => simp [Hvc.songOneSeg, List.get?] at h1)
    rfl rfl rfl rfl (by decide) (by decide) (by decide) (by decide)
